import Mathlib

/-!
A shallow embedding of cheroot/cli.py: the bind-address resolver
(parse_wsgi_bind_addr together with BindLocation and its bind_addr
accessor), the application resolver (Application.resolve and its
classification step) and the two config-building strategies
(Application.server_args and Gateway.server), together with the parts
of the Python standard library the source calls: the authority parsing
done by urllib.parse.urlparse on a string of the form //netloc
(netloc extraction, the mismatched-bracket ValueError, the _hostinfo
split, the hostname and port properties), int(s, 10) on ASCII input,
str.partition, str.startswith for a one-character marker, and dict
update.  The code uses contextlib.suppress, so Python 3 semantics
apply throughout; characters are treated at ASCII fidelity, which is
exact for every input considered in the theorems below.
-/

/-- Python exception values, carrying the exception class and message. -/
inductive PyErr where
  | valueError (msg : String)
  | typeError (msg : String)
  | importError (msg : String)
  | attributeError (msg : String)
deriving DecidableEq

/-- str.partition for a one-character separator, on the character list:
(head, found, tail) at the first occurrence; (s, false, "") when the
separator is absent. -/
def partList (l : List Char) (c : Char) : List Char × Bool × List Char :=
  match l with
  | [] => ([], false, [])
  | x :: xs =>
    if x = c then ([], true, xs)
    else (x :: (partList xs c).1, (partList xs c).2.1, (partList xs c).2.2)

/-- str.rpartition: split at the last occurrence of the separator;
("", false, s) when the separator is absent. -/
def rpartList (l : List Char) (c : Char) : List Char × Bool × List Char :=
  ((partList l.reverse c).2.2.reverse, (partList l.reverse c).2.1,
   (partList l.reverse c).1.reverse)

/-- Python membership test `c in s` on a character list. -/
def containsChar (l : List Char) (a : Char) : Bool :=
  l.any (fun c => c == a)

/-- BindLocation (cli.py lines 36-53): the four optional bind-target
fields; every constructor argument defaults to None. -/
structure BindLocation where
  address : Option String := Option.none
  port : Option Nat := Option.none
  file_socket : Option String := Option.none
  abstract_socket : Option String := Option.none
deriving DecidableEq

/-- The value of BindLocation.bind_addr: Python None, a (host, port)
tuple, or a string. -/
inductive PyBindAddr where
  | pyNone
  | tup (address : String) (port : Nat)
  | str (s : String)
deriving DecidableEq

/-- Python truthiness of a bind_addr value: None is falsy, a pair tuple
is truthy, a string is truthy exactly when nonempty. -/
def PyBindAddr.truthy : PyBindAddr → Bool
  | PyBindAddr.pyNone => false
  | PyBindAddr.tup _ _ => true
  | PyBindAddr.str s => !(s == "")

/-- Python `a or b`: a when truthy, else b. -/
def pyOr (a b : PyBindAddr) : PyBindAddr :=
  if a.truthy then a else b

/-- BindLocation._bind_addr (cli.py lines 60-64): the (address, port)
tuple when both fields are set, else None. -/
def BindLocation._bind_addr (loc : BindLocation) : PyBindAddr :=
  match loc.address, loc.port with
  | Option.some a, Option.some p => PyBindAddr.tup a p
  | _, _ => PyBindAddr.pyNone

/-- BindLocation._abstract_socket (cli.py lines 66-67): Python
`self.abstract_socket and NUL-prefixed name`, which returns the falsy
left operand itself (None or the empty string) when the name is falsy. -/
def BindLocation._abstract_socket (loc : BindLocation) : PyBindAddr :=
  match loc.abstract_socket with
  | Option.none => PyBindAddr.pyNone
  | Option.some s => if s = "" then PyBindAddr.str "" else PyBindAddr.str ("\x00" ++ s)

/-- The file_socket field read as a Python value. -/
def BindLocation.fileVal (loc : BindLocation) : PyBindAddr :=
  match loc.file_socket with
  | Option.none => PyBindAddr.pyNone
  | Option.some s => PyBindAddr.str s

/-- BindLocation.bind_addr (cli.py lines 55-58):
self._bind_addr() or self.file_socket or self._abstract_socket(). -/
def BindLocation.bind_addr (loc : BindLocation) : PyBindAddr :=
  pyOr (pyOr loc._bind_addr loc.fileVal) loc._abstract_socket

/-- urllib.parse._splitnetloc: in urlparse(//s) the authority is s up
to the first of the characters /, ?, #. -/
def netlocList (l : List Char) : List Char :=
  l.takeWhile (fun c => !(c == '/' || c == '?' || c == '#'))

/-- urlsplit raises ValueError (Invalid IPv6 URL) when the authority
contains one square bracket without the other. -/
def bracketMismatch (n : List Char) : Bool :=
  (containsChar n '[' && !(containsChar n ']')) ||
  (containsChar n ']' && !(containsChar n '['))

/-- SplitResult._hostinfo, plain branch: host up to the first colon,
the rest is the port string, with an empty port string becoming None. -/
def plainHostPort (hostinfo : List Char) : List Char × Option (List Char) :=
  ((partList hostinfo ':').1,
   if (partList hostinfo ':').2.2.isEmpty then Option.none
   else Option.some (partList hostinfo ':').2.2)

/-- SplitResult._hostinfo, bracketed branch: the host is delimited by
the square brackets and the port follows the first colon after the
closing bracket. -/
def bracketHostPort (hostinfo : List Char) : List Char × Option (List Char) :=
  ((partList (partList hostinfo '[').2.2 ']').1,
   if (partList (partList (partList hostinfo '[').2.2 ']').2.2 ':').2.2.isEmpty
   then Option.none
   else Option.some (partList (partList (partList hostinfo '[').2.2 ']').2.2 ':').2.2)

/-- SplitResult._hostinfo: strip the userinfo up to the last @, then
split host and port, choosing the bracketed form when an opening
bracket is present. -/
def hostinfoList (netloc : List Char) : List Char × Option (List Char) :=
  if containsChar (rpartList netloc '@').2.2 '[' then
    bracketHostPort (rpartList netloc '@').2.2
  else
    plainHostPort (rpartList netloc '@').2.2

/-- The ASCII whitespace stripped by int(). -/
def isPySpace (c : Char) : Bool :=
  c == ' ' || c == '\t' || c == '\n' || c == '\r' || c == '\x0b' || c == '\x0c'

/-- Strip leading and trailing whitespace. -/
def pyStrip (l : List Char) : List Char :=
  ((l.dropWhile isPySpace).reverse.dropWhile isPySpace).reverse

/-- int() accepts single underscores strictly between digits: after
the leading digit, every character is a digit or an underscore that is
immediately followed by a digit, and no underscore ends the string. -/
def afterDigit : List Char → Bool
  | [] => true
  | [c] => c.isDigit
  | c :: d :: r =>
    if c = '_' then d.isDigit && afterDigit (d :: r)
    else c.isDigit && afterDigit (d :: r)

/-- The numeric value of an ASCII digit string. -/
def digitsVal (l : List Char) : Nat :=
  l.foldl (fun a c => a * 10 + (c.toNat - 48)) 0

/-- Digit-group validity and value for int(s, 10) after sign removal:
a nonempty digit string with single underscores between digits. -/
def intCore (l : List Char) : Option Nat :=
  match l with
  | [] => Option.none
  | c :: r =>
    if c.isDigit && afterDigit r then
      Option.some (digitsVal (l.filter (fun d => !(d == '_'))))
    else Option.none

/-- int(s, 10) after whitespace stripping: an optional single sign
followed by the digit group. -/
def pyIntStripped : List Char → Option Int
  | [] => Option.none
  | c :: r =>
    if c = '+' then (intCore r).map (fun n => (n : Int))
    else if c = '-' then (intCore r).map (fun n => -(n : Int))
    else (intCore (c :: r)).map (fun n => (n : Int))

/-- Python int(s, 10) on ASCII input. -/
def pyIntOfList (l : List Char) : Option Int :=
  pyIntStripped (pyStrip l)

/-- SplitResult.hostname: the host part lowercased, None when empty. -/
def pyHostnameOf (h : List Char) : Option String :=
  if h.isEmpty then Option.none else Option.some (String.mk (h.map Char.toLower))

/-- The hostname property of urlparse(//s) applied to the authority. -/
def pyHostnameL (netloc : List Char) : Option String :=
  pyHostnameOf (hostinfoList netloc).1

/-- SplitResult.port on the optional port string: None when absent,
ValueError when not an integer or out of the range 0..65535. -/
def pyPortOfStr (ps : Option (List Char)) : Except PyErr (Option Nat) :=
  match ps with
  | Option.none => Except.ok Option.none
  | Option.some ps =>
    match pyIntOfList ps with
    | Option.none => Except.error (PyErr.valueError "Port could not be cast to integer value")
    | Option.some p =>
      if 0 ≤ p ∧ p ≤ 65535 then Except.ok (Option.some p.toNat)
      else Except.error (PyErr.valueError "Port out of range 0-65535")

/-- The port property of urlparse(//s) applied to the authority. -/
def pyPortL (netloc : List Char) : Except PyErr (Option Nat) :=
  pyPortOfStr (hostinfoList netloc).2

/-- str.startswith for a one-character marker. -/
def startsWithChar (s : String) (c : Char) : Bool :=
  match s.data with
  | [] => false
  | d :: _ => d == c

/-- cli.py lines 130-134: the fallthrough of parse_wsgi_bind_addr: a
leading @ gives the abstract form over the remainder of the string,
anything else the file form over the whole string. -/
def fallbackLocation (s : String) : BindLocation :=
  if startsWithChar s '@' then { abstract_socket := Option.some (String.mk s.data.tail) }
  else { file_socket := Option.some s }

/-- Bool view of the port property answering ok-none. -/
def portResultIsNone (netloc : List Char) : Bool :=
  match pyPortL netloc with
  | Except.ok Option.none => true
  | _ => false

/-- Bool view of the port property answering ok-some. -/
def portResultIsSome (netloc : List Char) : Bool :=
  match pyPortL netloc with
  | Except.ok (Option.some _) => true
  | _ => false

/-- parse_wsgi_bind_addr (cli.py lines 118-134): urlparse the string
prefixed with // as an authority; if a hostname or a port is found
return the network form; a ValueError raised by the port property is
swallowed by the except clause; otherwise fall through to the abstract
or file form.  The mismatched-bracket ValueError of urlparse itself is
raised on line 121, outside the try block, and propagates. -/
def parse_wsgi_bind_addr (bind_addr_string : String) : Except PyErr BindLocation :=
  if bracketMismatch (netlocList bind_addr_string.data) then
    Except.error (PyErr.valueError "Invalid IPv6 URL")
  else
    match pyPortL (netlocList bind_addr_string.data) with
    | Except.error _ => Except.ok (fallbackLocation bind_addr_string)
    | Except.ok port =>
      if (pyHostnameL (netlocList bind_addr_string.data)).isSome || port.isSome then
        Except.ok { address := pyHostnameL (netlocList bind_addr_string.data), port := port }
      else Except.ok (fallbackLocation bind_addr_string)

/-- Python objects the resolver can retrieve from a module attribute:
plain functions, classes (recording whether the class subclasses
cheroot.server.Gateway), and non-callable values. -/
inductive PyObj where
  | func (name : String)
  | cls (name : String) (gatewaySubclass : Bool)
  | intVal (n : Int)
  | strVal (s : String)
  | noneVal
deriving DecidableEq

/-- callable(x): functions and classes are callable. -/
def pyCallable : PyObj → Bool
  | PyObj.func _ => true
  | PyObj.cls _ _ => true
  | _ => false

/-- Whether the object is a class. -/
def isPyClass : PyObj → Bool
  | PyObj.cls _ _ => true
  | _ => false

/-- issubclass(x, server.Gateway): a class answers the recorded flag;
any non-class argument raises TypeError. -/
def issubclassGateway : PyObj → Except PyErr Bool
  | PyObj.cls _ g => Except.ok g
  | _ => Except.error (PyErr.typeError "issubclass() arg 1 must be a class")

/-- Bool view of the subclass probe answering ok-true. -/
def subclassOkTrue (o : PyObj) : Bool :=
  match issubclassGateway o with
  | Except.ok true => true
  | _ => false

/-- The two resolved handles: an Application instance holding wsgi_app,
or a Gateway instance holding the factory class. -/
inductive AppHandle where
  | application (wsgi_app : PyObj)
  | gateway (g : PyObj)
deriving DecidableEq

/-- Application.__init__ (cli.py lines 83-89): reject a non-callable
argument with TypeError, else store it as wsgi_app. -/
def Application.init (wsgi_app : PyObj) : Except PyErr AppHandle :=
  if pyCallable wsgi_app then Except.ok (AppHandle.application wsgi_app)
  else Except.error (PyErr.typeError
    "Application must be a callable object or cheroot.server.Gateway subclass")

/-- cli.py lines 77-81 plus the fallthrough to cls(app): the subclass
probe runs under contextlib.suppress(TypeError); an ok-true answer
gives a Gateway handle, a false answer falls through, and the
TypeError raised for a non-class argument (the only error the probe
can raise) is suppressed and also falls through to the callable check. -/
def classifyApp (app : PyObj) : Except PyErr AppHandle :=
  match issubclassGateway app with
  | Except.ok true => Except.ok (AppHandle.gateway app)
  | Except.ok false => Application.init app
  | Except.error _ => Application.init app

/-- A loaded module: its attribute table. -/
abbrev PyModule := List (String × PyObj)

/-- The environment of importable modules seen by import_module. -/
abbrev ModuleEnv := String → Option PyModule

/-- importlib.import_module: the module when importable, else
ImportError (which cli.py never catches). -/
def import_module (env : ModuleEnv) (modname : String) : Except PyErr PyModule :=
  match env modname with
  | Option.some m => Except.ok m
  | Option.none => Except.error (PyErr.importError modname)

/-- getattr on a module object: AttributeError when absent. -/
def pyGetattr (m : PyModule) (attr : String) : Except PyErr PyObj :=
  match List.lookup attr m with
  | Option.some o => Except.ok o
  | Option.none => Except.error (PyErr.attributeError attr)

/-- str.partition on full strings, in the Python result shape
(head, sep, tail). -/
def pyPartitionStr (s : String) (c : Char) : String × String × String :=
  (String.mk (partList s.data c).1,
   if (partList s.data c).2.1 then String.mk [c] else "",
   String.mk (partList s.data c).2.2)

/-- cli.py line 74 executes the statement
mod_path, app_path = full_path.partition(COLON); str.partition returns
a 3-tuple, and unpacking a 3-tuple into two names raises ValueError in
Python. -/
def unpackPair (_t : String × String × String) : Except PyErr (String × String) :=
  Except.error (PyErr.valueError "too many values to unpack (expected 2)")

/-- Application.resolve (cli.py lines 71-81): unpack the partition of
the full path, import the module, fetch the attribute (the literal
name application when the attribute part is empty), and classify. -/
def Application.resolve (env : ModuleEnv) (full_path : String) : Except PyErr AppHandle := do
  let mp ← unpackPair (pyPartitionStr full_path ':')
  let m ← import_module env mp.1
  let app ← pyGetattr m (if mp.2 = "" then "application" else mp.2)
  classifyApp app

/-- A parsed-option value as stored on the argparse namespace. -/
inductive PyVal where
  | none
  | intVal (n : Int)
  | strVal (s : String)
  | loc (l : BindLocation)
  | appVal (a : AppHandle)
deriving DecidableEq

/-- Whether the stored value is Python None. -/
def PyVal.isNone : PyVal → Bool
  | PyVal.none => true
  | _ => false

/-- The argparse namespace holding the declared options of _arg_spec
(cli.py lines 137-202), one field per destination, in declaration
order: _wsgi_app, bind_addr, chdir, server_name, numthreads, max,
timeout, shutdown_timeout, request_queue_size, accepted_queue_size,
accepted_queue_timeout. -/
structure ArgNamespace where
  _wsgi_app : PyVal
  bind_addr : PyVal
  chdir : PyVal
  server_name : PyVal
  numthreads : PyVal
  max : PyVal
  timeout : PyVal
  shutdown_timeout : PyVal
  request_queue_size : PyVal
  accepted_queue_size : PyVal
  accepted_queue_timeout : PyVal
deriving DecidableEq

/-- vars(parsed_args): the namespace dict in insertion order. -/
def pyVars (ns : ArgNamespace) : List (String × PyVal) :=
  [("_wsgi_app", ns._wsgi_app), ("bind_addr", ns.bind_addr), ("chdir", ns.chdir),
   ("server_name", ns.server_name), ("numthreads", ns.numthreads), ("max", ns.max),
   ("timeout", ns.timeout), ("shutdown_timeout", ns.shutdown_timeout),
   ("request_queue_size", ns.request_queue_size),
   ("accepted_queue_size", ns.accepted_queue_size),
   ("accepted_queue_timeout", ns.accepted_queue_timeout)]

/-- dict assignment d[k] = v, also the effect of update with one key:
replace in place when the key exists, else append. -/
def dictSet (d : List (String × PyVal)) (k : String) (v : PyVal) : List (String × PyVal) :=
  if d.any (fun kv => kv.1 == k) then
    d.map (fun kv => if kv.1 == k then (k, v) else kv)
  else d ++ [(k, v)]

/-- The comprehension filter of Application.server_args: keep entries
whose key does not start with the underscore marker and whose value is
not None. -/
def keepArg (kv : String × PyVal) : Bool :=
  !(startsWithChar kv.1 '_') && !(kv.2.isNone)

/-- Application.server_args (cli.py lines 91-98): filter the namespace
dict, then args.update(vars(self)) overlays the single wsgi_app entry. -/
def Application.server_args (wsgi_app : PyVal) (parsed_args : ArgNamespace) :
    List (String × PyVal) :=
  dictSet ((pyVars parsed_args).filter keepArg) "wsgi_app" wsgi_app

/-- os.chdir returns None; the working-directory change is a side
effect outside this model. -/
def os_chdir (_path : String) : PyVal := PyVal.none

/-- The value argparse stores for the chdir destination: the converter
os.chdir applied to the flag value when the flag is supplied, else the
default None. -/
def chdirArgValue (supplied : Option String) : PyVal :=
  match supplied with
  | Option.some p => os_chdir p
  | Option.none => PyVal.none

/-- argparse.Namespace has no __getitem__, so subscripting it raises
TypeError. -/
def ArgNamespace.getitem (_ns : ArgNamespace) (_key : String) : Except PyErr PyVal :=
  Except.error (PyErr.typeError "Namespace object is not subscriptable")

/-- Gateway.server (cli.py lines 108-115): vars(self) is the single
gateway entry; the source then evaluates parsed_args[...] by
subscripting the namespace before the thread-count conditionals. -/
def Gateway.server (gateway : PyVal) (parsed_args : ArgNamespace) :
    Except PyErr (List (String × PyVal)) := do
  let b ← parsed_args.getitem "bind_addr"
  let args := dictSet [("gateway", gateway)] "bind_addr" b
  let args := if !(parsed_args.max.isNone) then dictSet args "maxthreads" parsed_args.max else args
  let args := if !(parsed_args.numthreads.isNone) then dictSet args "minthreads" parsed_args.numthreads else args
  Except.ok args

/-- The hostname characters admitted by the host-and-port theorems:
ASCII letters and digits, dot and hyphen. -/
def isHostChar (c : Char) : Bool :=
  c.isAlphanum || c == '.' || c == '-'

/-! ### Helper lemmas -/

theorem ne_of_pred {p : Char → Bool} {c x : Char} (h : p c = true) (hx : p x = false) :
    c ≠ x := by
  intro he
  rw [he, hx] at h
  exact Bool.noConfusion h

theorem beq_false_of_pred {p : Char → Bool} {c x : Char} (h : p c = true) (hx : p x = false) :
    (c == x) = false := by
  cases hcx : c == x
  · rfl
  · exact absurd (eq_of_beq hcx) (ne_of_pred h hx)

theorem takeWhile_all {p : Char → Bool} :
    ∀ {l : List Char}, (∀ c ∈ l, p c = true) → l.takeWhile p = l
  | [], _ => rfl
  | c :: r, h => by
    have hc := h c (List.mem_cons_self c r)
    have ih := takeWhile_all (fun x hx => h x (List.mem_cons_of_mem _ hx))
    simp [List.takeWhile_cons, hc, ih]

theorem dropWhile_all {p : Char → Bool} :
    ∀ {l : List Char}, (∀ c ∈ l, p c = false) → l.dropWhile p = l
  | [], _ => rfl
  | c :: r, h => by
    have hc := h c (List.mem_cons_self c r)
    simp [List.dropWhile_cons, hc]

theorem containsChar_false {a : Char} :
    ∀ {l : List Char}, (∀ x ∈ l, x ≠ a) → containsChar l a = false
  | [], _ => rfl
  | x :: xs, h => by
    have hx : (x == a) = false := by
      cases hb : x == a
      · rfl
      · exact absurd (eq_of_beq hb) (h x (List.mem_cons_self x xs))
    have ih := containsChar_false (fun y hy => h y (List.mem_cons_of_mem _ hy))
    simp [containsChar, List.any_cons, hx]
    simpa [containsChar] using ih

theorem partList_not_mem {a : Char} :
    ∀ {l : List Char}, (∀ x ∈ l, x ≠ a) → partList l a = (l, false, [])
  | [], _ => rfl
  | x :: xs, h => by
    have hx : x ≠ a := h x (List.mem_cons_self x xs)
    have ih := partList_not_mem (fun y hy => h y (List.mem_cons_of_mem _ hy))
    simp [partList, hx, ih]

theorem partList_first {a : Char} :
    ∀ (l₁ l₂ : List Char), (∀ x ∈ l₁, x ≠ a) → partList (l₁ ++ a :: l₂) a = (l₁, true, l₂)
  | [], l₂, _ => by simp [partList]
  | x :: xs, l₂, h => by
    have hx : x ≠ a := h x (List.mem_cons_self x xs)
    have ih := partList_first xs l₂ (fun y hy => h y (List.mem_cons_of_mem _ hy))
    simp [partList, hx, ih]

theorem rpartList_not_mem {a : Char} {l : List Char} (h : ∀ x ∈ l, x ≠ a) :
    rpartList l a = ([], false, l) := by
  have hr : ∀ x ∈ l.reverse, x ≠ a := fun x hx => h x (List.mem_reverse.mp hx)
  simp [rpartList, partList_not_mem hr]

theorem isPySpace_false_of_digit {c : Char} (h : c.isDigit = true) : isPySpace c = false := by
  simp only [isPySpace]
  rw [beq_false_of_pred h (by decide : Char.isDigit ' ' = false),
      beq_false_of_pred h (by decide : Char.isDigit '\t' = false),
      beq_false_of_pred h (by decide : Char.isDigit '\n' = false),
      beq_false_of_pred h (by decide : Char.isDigit '\r' = false),
      beq_false_of_pred h (by decide : Char.isDigit '\x0b' = false),
      beq_false_of_pred h (by decide : Char.isDigit '\x0c' = false)]
  rfl

theorem afterDigit_all : ∀ {l : List Char}, (∀ c ∈ l, c.isDigit = true) → afterDigit l = true
  | [], _ => rfl
  | [c], h => h c (List.mem_cons_self c [])
  | c :: d :: r, h => by
    have hc := h c (List.mem_cons_self c (d :: r))
    have ih := afterDigit_all (fun x hx => h x (List.mem_cons_of_mem _ hx))
    show (if c = '_' then d.isDigit && afterDigit (d :: r)
          else c.isDigit && afterDigit (d :: r)) = true
    rw [if_neg (ne_of_pred hc (by decide : Char.isDigit '_' = false)), hc, ih]
    rfl

theorem filter_all {q : Char → Bool} :
    ∀ {l : List Char}, (∀ c ∈ l, q c = true) → l.filter q = l
  | [], _ => rfl
  | c :: r, h => by
    have hc := h c (List.mem_cons_self c r)
    have ih := filter_all (fun x hx => h x (List.mem_cons_of_mem _ hx))
    simp [List.filter_cons, hc, ih]

theorem pyStrip_digits {l : List Char} (hd : ∀ c ∈ l, c.isDigit = true) : pyStrip l = l := by
  have h1 : l.dropWhile isPySpace = l :=
    dropWhile_all (fun c hc => isPySpace_false_of_digit (hd c hc))
  have h2 : l.reverse.dropWhile isPySpace = l.reverse :=
    dropWhile_all (fun c hc => isPySpace_false_of_digit (hd c (List.mem_reverse.mp hc)))
  simp [pyStrip, h1, h2]

theorem pyIntOfList_digits {l : List Char} (hne : l ≠ [])
    (hd : ∀ c ∈ l, c.isDigit = true) :
    pyIntOfList l = Option.some ((digitsVal l : Int)) := by
  rw [pyIntOfList, pyStrip_digits hd]
  cases l with
  | nil => exact absurd rfl hne
  | cons c r =>
    have hc : c.isDigit = true := hd c (List.mem_cons_self c r)
    have hr : ∀ x ∈ r, Char.isDigit x = true := fun x hx => hd x (List.mem_cons_of_mem _ hx)
    simp only [pyIntStripped]
    rw [if_neg (ne_of_pred hc (by decide : Char.isDigit '+' = false)),
        if_neg (ne_of_pred hc (by decide : Char.isDigit '-' = false))]
    simp only [intCore]
    rw [hc, afterDigit_all hr]
    rw [filter_all (fun x hx => by
      have : x.isDigit = true := hd x hx
      rw [beq_false_of_pred this (by decide : Char.isDigit '_' = false)]
      rfl)]
    rfl

theorem hostport_chars_ne {host port : List Char} (a : Char)
    (hhc : ∀ c ∈ host, isHostChar c = true) (hpc : ∀ c ∈ port, Char.isDigit c = true)
    (ha1 : isHostChar a = false) (ha2 : Char.isDigit a = false) (ha3 : (':' : Char) ≠ a) :
    ∀ x ∈ host ++ ':' :: port, x ≠ a := by
  intro x hx
  rcases List.mem_append.mp hx with hx | hx
  · exact ne_of_pred (hhc x hx) ha1
  · rcases List.mem_cons.mp hx with rfl | hx
    · exact ha3
    · exact ne_of_pred (hpc x hx) ha2

theorem netlocList_hostport {host port : List Char}
    (hhc : ∀ c ∈ host, isHostChar c = true) (hpc : ∀ c ∈ port, Char.isDigit c = true) :
    netlocList (host ++ ':' :: port) = host ++ ':' :: port := by
  apply takeWhile_all
  intro c hc
  rcases List.mem_append.mp hc with hx | hx
  · have h := hhc c hx
    rw [beq_false_of_pred h (by decide : isHostChar '/' = false),
        beq_false_of_pred h (by decide : isHostChar '?' = false),
        beq_false_of_pred h (by decide : isHostChar '#' = false)]
    rfl
  · rcases List.mem_cons.mp hx with rfl | hx
    · rfl
    · have h := hpc c hx
      rw [beq_false_of_pred h (by decide : Char.isDigit '/' = false),
          beq_false_of_pred h (by decide : Char.isDigit '?' = false),
          beq_false_of_pred h (by decide : Char.isDigit '#' = false)]
      rfl

theorem bracketMismatch_hostport {host port : List Char}
    (hhc : ∀ c ∈ host, isHostChar c = true) (hpc : ∀ c ∈ port, Char.isDigit c = true) :
    bracketMismatch (host ++ ':' :: port) = false := by
  have hl := containsChar_false
    (hostport_chars_ne '[' hhc hpc (by decide) (by decide) (by decide))
  have hr := containsChar_false
    (hostport_chars_ne ']' hhc hpc (by decide) (by decide) (by decide))
  simp [bracketMismatch, hl, hr]

theorem hostinfoList_hostport {host port : List Char}
    (hhc : ∀ c ∈ host, isHostChar c = true) (hpc : ∀ c ∈ port, Char.isDigit c = true)
    (hpne : port ≠ []) :
    hostinfoList (host ++ ':' :: port) = (host, Option.some port) := by
  have hat : ∀ x ∈ host ++ ':' :: port, x ≠ '@' :=
    hostport_chars_ne '@' hhc hpc (by decide) (by decide) (by decide)
  have hrp := rpartList_not_mem hat
  have hbr : containsChar (host ++ ':' :: port) '[' = false :=
    containsChar_false (hostport_chars_ne '[' hhc hpc (by decide) (by decide) (by decide))
  have hcolon : ∀ x ∈ host, x ≠ ':' := fun x hx =>
    ne_of_pred (hhc x hx) (by decide : isHostChar ':' = false)
  have hpart := partList_first host port hcolon
  have hpe : port.isEmpty = false := by
    cases port
    · exact absurd rfl hpne
    · rfl
  rw [hostinfoList, hrp]
  simp only [hbr, Bool.false_eq_true, if_false, plainHostPort, hpart, hpe]

theorem pyPortL_hostport {host port : List Char}
    (hhc : ∀ c ∈ host, isHostChar c = true) (hpc : ∀ c ∈ port, Char.isDigit c = true)
    (hpne : port ≠ []) (hle : digitsVal port ≤ 65535) :
    pyPortL (host ++ ':' :: port) = Except.ok (Option.some (digitsVal port)) := by
  rw [pyPortL, hostinfoList_hostport hhc hpc hpne]
  simp only [pyPortOfStr, pyIntOfList_digits hpne hpc]
  rw [if_pos ⟨by positivity, by exact_mod_cast hle⟩]
  simp

theorem pyHostnameL_hostport {host port : List Char}
    (hhc : ∀ c ∈ host, isHostChar c = true) (hpc : ∀ c ∈ port, Char.isDigit c = true)
    (hhne : host ≠ []) (hpne : port ≠ []) :
    pyHostnameL (host ++ ':' :: port) =
      Option.some (String.mk (host.map Char.toLower)) := by
  rw [pyHostnameL, hostinfoList_hostport hhc hpc hpne]
  have hhe : host.isEmpty = false := by
    cases host
    · exact absurd rfl hhne
    · rfl
  simp [pyHostnameOf, hhe]

theorem pyVars_key_ne {ns : ArgNamespace} {kv : String × PyVal} (h : kv ∈ pyVars ns) :
    kv.1 ≠ "wsgi_app" := by
  have hk : kv.1 ∈ (pyVars ns).map Prod.fst := List.mem_map_of_mem Prod.fst h
  have hkeys : (pyVars ns).map Prod.fst =
      ["_wsgi_app", "bind_addr", "chdir", "server_name", "numthreads", "max",
       "timeout", "shutdown_timeout", "request_queue_size", "accepted_queue_size",
       "accepted_queue_timeout"] := rfl
  rw [hkeys] at hk
  intro he
  rw [he] at hk
  revert hk
  decide

theorem filtered_no_wsgi_app (ns : ArgNamespace) :
    ((pyVars ns).filter keepArg).any (fun kv => kv.1 == "wsgi_app") = false := by
  cases ha : ((pyVars ns).filter keepArg).any (fun kv => kv.1 == "wsgi_app")
  · rfl
  · exfalso
    obtain ⟨kv, hmem, hbeq⟩ := List.any_eq_true.mp ha
    exact pyVars_key_ne (List.mem_filter.mp hmem).1 (eq_of_beq hbeq)

theorem server_args_eq_append (wsgi_app : PyVal) (ns : ArgNamespace) :
    Application.server_args wsgi_app ns =
      (pyVars ns).filter keepArg ++ [("wsgi_app", wsgi_app)] := by
  rw [Application.server_args, dictSet, if_neg]
  rw [filtered_no_wsgi_app ns]
  exact Bool.false_ne_true

theorem mem_server_args {wsgi_app v : PyVal} {ns : ArgNamespace} {k : String} :
    (k, v) ∈ Application.server_args wsgi_app ns ↔
      ((k, v) ∈ pyVars ns ∧ startsWithChar k '_' = false ∧ v.isNone = false) ∨
      (k = "wsgi_app" ∧ v = wsgi_app) := by
  rw [server_args_eq_append, List.mem_append]
  constructor
  · intro h
    rcases h with h | h
    · obtain ⟨hm, hk⟩ := List.mem_filter.mp h
      have hk2 : startsWithChar k '_' = false ∧ v.isNone = false := by
        simpa [keepArg] using hk
      exact Or.inl ⟨hm, hk2.1, hk2.2⟩
    · rcases List.mem_singleton.mp h with he
      exact Or.inr ⟨congrArg Prod.fst he, congrArg Prod.snd he⟩
  · intro h
    rcases h with ⟨hm, h1, h2⟩ | ⟨hk, hv⟩
    · refine Or.inl (List.mem_filter.mpr ⟨hm, ?_⟩)
      show (!(startsWithChar k '_') && !(v.isNone)) = true
      rw [h1, h2]
      rfl
    · subst hk
      subst hv
      exact Or.inr (List.mem_singleton.mpr rfl)

/-! ### Claim theorems -/

/-- C1: the claim says Application.resolve splits the path on the first
colon and returns a CallableApplication handle for a plain function,
but cli.py line 74 unpacks the 3-tuple returned by str.partition into
two names, so resolve raises ValueError for every module environment
and every input string before any import happens. -/
theorem resolve_always_unpack_valueerror (env : ModuleEnv) (full_path : String) :
    Application.resolve env full_path =
      Except.error (PyErr.valueError "too many values to unpack (expected 2)") := rfl

/-- C4: the claim says the GatewayFactory build strategy constructs a
keyword set around the resolved bind address, but cli.py line 110
subscripts the argparse namespace, which has no item access, so
Gateway.server raises TypeError for every gateway handle and every
parsed option set before any keyword set is built. -/
theorem gateway_server_always_typeerror (gateway : PyVal) (parsed_args : ArgNamespace) :
    Gateway.server gateway parsed_args =
      Except.error (PyErr.typeError "Namespace object is not subscriptable") := rfl

/-- C3: the claim (and the module docstring) say a leading at-sign
yields the abstract-socket form, but urlparse treats the at-sign as a
userinfo separator, finds hostname cherootserver, and
parse_wsgi_bind_addr returns a network-form BindLocation whose
effective address is even None. -/
theorem parse_at_sign_yields_network_form :
    parse_wsgi_bind_addr "@CherootServer" =
      Except.ok { address := Option.some "cherootserver", port := Option.none,
                  file_socket := Option.none, abstract_socket := Option.none } ∧
    BindLocation.bind_addr
        { address := Option.some "cherootserver", port := Option.none,
          file_socket := Option.none, abstract_socket := Option.none } =
      PyBindAddr.pyNone := ⟨rfl, rfl⟩

/-- C2 counterexample: parse_wsgi_bind_addr is not total: on the input
consisting of a single opening bracket the mismatched-bracket
ValueError of urlparse is raised outside the try block and propagates. -/
theorem parse_bracket_raises_valueerror :
    parse_wsgi_bind_addr "[" = Except.error (PyErr.valueError "Invalid IPv6 URL") := rfl

/-- C2 (amended): parse_wsgi_bind_addr returns a BindLocation for
every input string whose derived authority has matched square
brackets, and on such inputs with no hostname, no integer port and no
leading at-sign it falls back to the filesystem-path interpretation. -/
theorem parse_total_on_bracket_ok (s : String)
    (h : bracketMismatch (netlocList s.data) = false) :
    (∃ loc, parse_wsgi_bind_addr s = Except.ok loc) ∧
    (pyHostnameL (netlocList s.data) = Option.none →
       portResultIsSome (netlocList s.data) = false →
       startsWithChar s '@' = false →
       parse_wsgi_bind_addr s = Except.ok { file_socket := Option.some s }) := by
  constructor
  · simp only [parse_wsgi_bind_addr, h, Bool.false_eq_true, if_false]
    cases hq : pyPortL (netlocList s.data) with
    | error e => exact ⟨fallbackLocation s, rfl⟩
    | ok port =>
      cases hc : ((pyHostnameL (netlocList s.data)).isSome || port.isSome)
      · simp only [hc, Bool.false_eq_true, if_false]
        exact ⟨fallbackLocation s, rfl⟩
      · simp only [hc, if_true]
        exact ⟨_, rfl⟩
  · intro hh hp hat
    have hfb : fallbackLocation s = { file_socket := Option.some s } := by
      rw [fallbackLocation, hat]
      simp
    simp only [parse_wsgi_bind_addr, h, Bool.false_eq_true, if_false]
    cases hq : pyPortL (netlocList s.data) with
    | error e => rw [hfb]
    | ok port =>
      have hpn : port = Option.none := by
        revert hp
        unfold portResultIsSome
        rw [hq]
        cases port with
        | none => intro _; rfl
        | some p => intro hp; simp at hp
      subst hpn
      rw [hh]
      simp [hfb]

/-- C2 witness. -/
theorem parse_total_on_bracket_ok_witness :
    parse_wsgi_bind_addr "/tmp/app.sock" =
      Except.ok { file_socket := Option.some "/tmp/app.sock" } :=
  (parse_total_on_bracket_ok "/tmp/app.sock" rfl).2 rfl rfl rfl

/-- C7: for an input whose authority parse yields a hostname and no
port, parse_wsgi_bind_addr returns a network-form BindLocation with a
null port, whose effective address bind_addr is None: neither network,
file, nor abstract form is derived. -/
theorem parse_hostname_only_null (s a : String)
    (hbr : bracketMismatch (netlocList s.data) = false)
    (hh : pyHostnameL (netlocList s.data) = Option.some a)
    (hp : portResultIsNone (netlocList s.data) = true) :
    parse_wsgi_bind_addr s =
      Except.ok { address := Option.some a, port := Option.none,
                  file_socket := Option.none, abstract_socket := Option.none } ∧
    BindLocation.bind_addr
        { address := Option.some a, port := Option.none,
          file_socket := Option.none, abstract_socket := Option.none } =
      PyBindAddr.pyNone := by
  have hport : pyPortL (netlocList s.data) = Except.ok Option.none := by
    revert hp
    unfold portResultIsNone
    cases hq : pyPortL (netlocList s.data) with
    | error e => intro hp; simp at hp
    | ok o =>
      cases o with
      | none => intro _; rfl
      | some p => intro hp; simp at hp
  constructor
  · simp only [parse_wsgi_bind_addr, hbr, Bool.false_eq_true, if_false, hport, hh]
    simp
  · rfl

/-- C7 witness. -/
theorem parse_hostname_only_null_witness :
    parse_wsgi_bind_addr "myhost" =
      Except.ok { address := Option.some "myhost", port := Option.none,
                  file_socket := Option.none, abstract_socket := Option.none } :=
  (parse_hostname_only_null "myhost" "myhost" rfl rfl rfl).1

/-- C9 counterexample: for the input A:1 the returned host is the
lowercased a, not the host A appearing in the input, so the resolver
does not return exactly the given host. -/
theorem parse_host_port_lowercases :
    parse_wsgi_bind_addr "A:1" =
      Except.ok { address := Option.some "a", port := Option.some 1,
                  file_socket := Option.none, abstract_socket := Option.none } ∧
    ("a" : String) ≠ "A" := ⟨rfl, by decide⟩

/-- C9 (amended): for every input of the form host colon port with a
nonempty hostname over letters, digits, dots and hyphens and a
nonempty all-digit port string whose value is at most 65535,
parse_wsgi_bind_addr returns the network form whose address is the
hostname lowercased and whose port is the integer value, and the
effective address bind_addr is exactly that (lowercased host, port)
pair. -/
theorem parse_host_port_network (host portStr : String)
    (hhne : host.data ≠ []) (hhc : ∀ c ∈ host.data, isHostChar c = true)
    (hpne : portStr.data ≠ []) (hpc : ∀ c ∈ portStr.data, Char.isDigit c = true)
    (hle : digitsVal portStr.data ≤ 65535) :
    parse_wsgi_bind_addr (host ++ ":" ++ portStr) =
      Except.ok { address := Option.some (String.mk (host.data.map Char.toLower)),
                  port := Option.some (digitsVal portStr.data),
                  file_socket := Option.none, abstract_socket := Option.none } ∧
    BindLocation.bind_addr
        { address := Option.some (String.mk (host.data.map Char.toLower)),
          port := Option.some (digitsVal portStr.data),
          file_socket := Option.none, abstract_socket := Option.none } =
      PyBindAddr.tup (String.mk (host.data.map Char.toLower)) (digitsVal portStr.data) := by
  have hdata : (host ++ ":" ++ portStr).data = host.data ++ ':' :: portStr.data := by
    show (host.data ++ [':']) ++ portStr.data = host.data ++ ':' :: portStr.data
    simp
  constructor
  · simp only [parse_wsgi_bind_addr, hdata, netlocList_hostport hhc hpc,
      bracketMismatch_hostport hhc hpc, Bool.false_eq_true, if_false,
      pyPortL_hostport hhc hpc hpne hle, pyHostnameL_hostport hhc hpc hhne hpne]
    simp
  · rfl

/-- C9 witness. -/
theorem parse_host_port_network_witness :
    parse_wsgi_bind_addr "example.com:8080" =
      Except.ok { address := Option.some "example.com", port := Option.some 8080,
                  file_socket := Option.none, abstract_socket := Option.none } := by
  exact (parse_host_port_network "example.com" "8080" (by decide) (by decide) (by decide)
    (by decide) (by decide)).1

/-- C5: the keyword set built by Application.server_args contains
exactly the parsed-option entries whose key does not begin with the
underscore marker and whose value is not None, plus the callable
target overlaid under the key wsgi_app. -/
theorem server_args_exact (wsgi_app v : PyVal) (parsed_args : ArgNamespace) (k : String) :
    (k, v) ∈ Application.server_args wsgi_app parsed_args ↔
      ((k, v) ∈ pyVars parsed_args ∧ startsWithChar k '_' = false ∧ v.isNone = false) ∨
      (k = "wsgi_app" ∧ v = wsgi_app) :=
  mem_server_args

/-- C6 counterexample: the fixed claimed precedence says the effective
address is the file path whenever it is non-null and no network tuple
applies, but on a BindLocation whose file_socket is the empty string
and whose abstract_socket is x, bind_addr skips the non-null file path
(Python truthiness, not nullness) and returns the NUL-prefixed
abstract name instead. -/
theorem bind_addr_empty_file_skipped :
    BindLocation.bind_addr
        { file_socket := Option.some "", abstract_socket := Option.some "x" } =
      PyBindAddr.str "\x00x" ∧
    PyBindAddr.str "\x00x" ≠ PyBindAddr.str "" := ⟨rfl, by decide⟩

/-- C6 (amended): reading bind_addr follows Python truthiness with the
fixed precedence network over file over abstract: the (address, port)
tuple when both fields are non-null, otherwise the file path when it
is non-null and nonempty, otherwise the value of _abstract_socket (the
NUL-prefixed abstract name when that name is truthy, else the falsy
name itself). -/
theorem bind_addr_truthy_precedence (loc : BindLocation) :
    (∀ a p, loc.address = Option.some a → loc.port = Option.some p →
       loc.bind_addr = PyBindAddr.tup a p) ∧
    ((loc.address = Option.none ∨ loc.port = Option.none) →
       ∀ f, loc.file_socket = Option.some f → f ≠ "" →
       loc.bind_addr = PyBindAddr.str f) ∧
    ((loc.address = Option.none ∨ loc.port = Option.none) →
       (loc.file_socket = Option.none ∨ loc.file_socket = Option.some "") →
       loc.bind_addr = loc._abstract_socket) := by
  obtain ⟨a, p, f, ab⟩ := loc
  have hnull : ∀ (a0 : Option String) (p0 : Option Nat),
      a0 = Option.none ∨ p0 = Option.none →
      BindLocation._bind_addr ⟨a0, p0, f, ab⟩ = PyBindAddr.pyNone := by
    intro a0 p0 h0
    rcases h0 with h0 | h0
    · subst h0
      cases p0 <;> rfl
    · subst h0
      cases a0 <;> rfl
  refine ⟨?_, ?_, ?_⟩
  · intro x y hx hy
    subst hx
    subst hy
    rfl
  · intro hnp x hf hne
    subst hf
    have hbeq : (x == "") = false := by
      cases hb : x == ""
      · rfl
      · exact absurd (eq_of_beq hb) hne
    have h1 := hnull a p hnp
    simp [BindLocation.bind_addr, h1, BindLocation.fileVal, pyOr, PyBindAddr.truthy, hbeq]
  · intro hnp hfe
    have h1 := hnull a p hnp
    rcases hfe with hf | hf <;> subst hf <;>
      simp [BindLocation.bind_addr, h1, BindLocation.fileVal, pyOr, PyBindAddr.truthy]

/-- C6 witness. -/
theorem bind_addr_truthy_precedence_witness :
    BindLocation.bind_addr
        { address := Option.some "h", port := Option.some 1,
          file_socket := Option.some "f", abstract_socket := Option.some "x" } =
      PyBindAddr.tup "h" 1 ∧
    BindLocation.bind_addr
        { address := Option.none, port := Option.some 1,
          file_socket := Option.some "f", abstract_socket := Option.some "x" } =
      PyBindAddr.str "f" :=
  ⟨(bind_addr_truthy_precedence
      { address := Option.some "h", port := Option.some 1,
        file_socket := Option.some "f", abstract_socket := Option.some "x" }).1
      "h" 1 rfl rfl,
   ((bind_addr_truthy_precedence
      { address := Option.none, port := Option.some 1,
        file_socket := Option.some "f", abstract_socket := Option.some "x" }).2.1
      (Or.inl rfl)) "f" rfl (by decide)⟩

/-- C8: classifying an object that answers neither ok-true to the
Gateway subclass probe nor true to callable fails with the TypeError
naming both acceptable forms, and for every non-class object the
TypeError of the subclass probe itself is suppressed so that
classification falls through to the callable check of
Application.__init__. -/
theorem classify_nonclass_noncallable (app : PyObj) :
    (isPyClass app = false →
       issubclassGateway app =
         Except.error (PyErr.typeError "issubclass() arg 1 must be a class") ∧
       classifyApp app = Application.init app) ∧
    (subclassOkTrue app = false → pyCallable app = false →
       classifyApp app = Except.error (PyErr.typeError
         "Application must be a callable object or cheroot.server.Gateway subclass")) := by
  cases app with
  | func n =>
    refine ⟨fun _ => ⟨rfl, rfl⟩, fun _ hc => ?_⟩
    simp [pyCallable] at hc
  | cls n g =>
    refine ⟨fun h => ?_, fun hs hc => ?_⟩
    · simp [isPyClass] at h
    · simp [pyCallable] at hc
  | intVal n => exact ⟨fun _ => ⟨rfl, rfl⟩, fun _ _ => rfl⟩
  | strVal s => exact ⟨fun _ => ⟨rfl, rfl⟩, fun _ _ => rfl⟩
  | noneVal => exact ⟨fun _ => ⟨rfl, rfl⟩, fun _ _ => rfl⟩

/-- C8 witness. -/
theorem classify_nonclass_noncallable_witness :
    classifyApp (PyObj.intVal 7) = Application.init (PyObj.intVal 7) ∧
    classifyApp (PyObj.intVal 7) = Except.error (PyErr.typeError
      "Application must be a callable object or cheroot.server.Gateway subclass") :=
  ⟨((classify_nonclass_noncallable (PyObj.intVal 7)).1 rfl).2,
   (classify_nonclass_noncallable (PyObj.intVal 7)).2 rfl rfl⟩

/-- C10: the chdir converter os.chdir always yields None, so the chdir
key is filtered out of the CallableApplication keyword set by the
non-None condition for every command line, whether or not the flag was
supplied. -/
theorem chdir_never_forwarded (supplied : Option String) (wsgi_app : PyVal)
    (parsed_args : ArgNamespace) (h : parsed_args.chdir = chdirArgValue supplied) :
    chdirArgValue supplied = PyVal.none ∧
    ∀ v, ("chdir", v) ∉ Application.server_args wsgi_app parsed_args := by
  have hnone : chdirArgValue supplied = PyVal.none := by
    cases supplied <;> rfl
  refine ⟨hnone, ?_⟩
  intro v hv
  rcases mem_server_args.mp hv with ⟨hm, _, hnn⟩ | ⟨hk, _⟩
  · have hvc : v = parsed_args.chdir := by
      simp only [pyVars, List.mem_cons, List.not_mem_nil, or_false, Prod.mk.injEq] at hm
      rcases hm with ⟨h1, h2⟩|⟨h1, h2⟩|⟨h1, h2⟩|⟨h1, h2⟩|⟨h1, h2⟩|⟨h1, h2⟩|⟨h1, h2⟩|⟨h1, h2⟩|⟨h1, h2⟩|⟨h1, h2⟩|⟨h1, h2⟩ <;>
        first
          | exact h2
          | exact absurd h1 (by decide)
    rw [hvc, h, hnone] at hnn
    exact absurd hnn (by decide)
  · exact absurd hk (by decide)

/-- C10 witness. -/
theorem chdir_never_forwarded_witness :
    ("chdir", PyVal.intVal 3) ∉ Application.server_args (PyVal.strVal "f")
      { _wsgi_app := PyVal.none, bind_addr := PyVal.none, chdir := PyVal.none,
        server_name := PyVal.none, numthreads := PyVal.none, max := PyVal.none,
        timeout := PyVal.none, shutdown_timeout := PyVal.none,
        request_queue_size := PyVal.none, accepted_queue_size := PyVal.none,
        accepted_queue_timeout := PyVal.none } :=
  (chdir_never_forwarded (Option.some "/tmp") (PyVal.strVal "f")
      { _wsgi_app := PyVal.none, bind_addr := PyVal.none, chdir := PyVal.none,
        server_name := PyVal.none, numthreads := PyVal.none, max := PyVal.none,
        timeout := PyVal.none, shutdown_timeout := PyVal.none,
        request_queue_size := PyVal.none, accepted_queue_size := PyVal.none,
        accepted_queue_timeout := PyVal.none } rfl).2 (PyVal.intVal 3)
